import Mathlib

/-!
Shallow embedding of the taskflow-api Go service (a Fiber + gorm REST API)
and proofs about its handler logic.

Modelling conventions, applied uniformly:

* UUIDs and timestamps are modelled as `Nat`.  The database is a record of
  three lists of rows (`users`, `projects`, `tasks`), one per table; row
  order stands for primary-key order.
* gorm soft deletion: each row carries `deletedAt : Option Nat`
  (`gorm.DeletedAt`).  gorm adds `deleted_at IS NULL` to every query whose
  primary model has the field, including `UPDATE`s issued by `Save`; a raw
  `Joins(...)` clause on a secondary table adds no such condition for that
  table.  `Delete` on such a model performs `UPDATE ... SET deleted_at`.
* The gorm-managed `created_at` / `updated_at` columns are omitted: no
  claim concerns them.
* Fallible handler steps return an explicit `Outcome`, carrying the HTTP
  status and the response envelope fields from the source
  (`SuccessResponse` / `ErrorResponse`).
* Handlers model the path after routing, body parsing and `validator`
  checks (the 400 branches for malformed bodies and the 401 branch for a
  missing context user are upstream of everything the claims quantify
  over); the authenticated caller identity extracted by the middleware is
  an explicit `caller : Nat` argument.
* bcrypt and uuid generation are external: the produced hash and fresh id
  enter as parameters.
* JWT signing is modelled symbolically (standard symbolic-crypto style):
  a signed token records its claims and the secret it was signed with,
  and `ParseWithClaims` succeeds exactly when the verifying secret equals
  the signing secret.  Any other header content is `garbage` or a
  non-Bearer string.
-/

/-- Project lifecycle status (`models.ProjectStatus`). -/
inductive ProjectStatus where
  | active
  | archived
  | completed
deriving DecidableEq, Repr

/-- Task status (`models.TaskStatus`). -/
inductive TaskStatus where
  | todo
  | inProgress
  | done
  | cancelled
deriving DecidableEq, Repr

/-- Task priority (`models.TaskPriority`). -/
inductive TaskPriority where
  | low
  | medium
  | high
  | urgent
deriving DecidableEq, Repr

/-- A row of the `users` table (`models.User`). -/
structure UserRow where
  id : Nat
  email : String
  passwordHash : String
  firstName : String
  lastName : String
  avatarURL : Option String
  isActive : Bool
  deletedAt : Option Nat
deriving DecidableEq, Repr

/-- A row of the `projects` table (`models.Project`). -/
structure ProjectRow where
  id : Nat
  name : String
  description : Option String
  color : String
  ownerId : Nat
  status : ProjectStatus
  deletedAt : Option Nat
deriving DecidableEq, Repr

/-- A row of the `tasks` table (`models.Task`). -/
structure TaskRow where
  id : Nat
  title : String
  description : Option String
  projectId : Nat
  assigneeId : Option Nat
  status : TaskStatus
  priority : TaskPriority
  dueDate : Option Nat
  completedAt : Option Nat
  deletedAt : Option Nat
deriving DecidableEq, Repr

/-- The relational store: one list per table. -/
structure DB where
  users : List UserRow
  projects : List ProjectRow
  tasks : List TaskRow
deriving DecidableEq, Repr

/-- `models.UserResponse`: the profile shape returned for a user
(everything except the password hash and the soft-delete marker). -/
structure UserResponse where
  id : Nat
  email : String
  firstName : String
  lastName : String
  avatarURL : Option String
  isActive : Bool
deriving DecidableEq, Repr

/-- `User.ToResponse`. -/
def UserRow.toResponse (u : UserRow) : UserResponse :=
  { id := u.id, email := u.email, firstName := u.firstName,
    lastName := u.lastName, avatarURL := u.avatarURL, isActive := u.isActive }

/-- HTTP outcome of a handler: a success envelope (`SuccessResponse` with
status and message) or an error envelope (`ErrorResponse` with status,
error and message). -/
inductive Outcome (α : Type) where
  | ok (status : Nat) (message : String) (data : α)
  | err (status : Nat) (error : String) (message : String)
deriving DecidableEq, Repr

/-- `models.PaginationResponse`. -/
structure PaginationOut where
  page : Int
  limit : Int
  total : Nat
  totalPages : Nat
deriving DecidableEq, Repr

/-- `models.ListResponse`. -/
structure ListOut (α : Type) where
  data : List α
  pagination : PaginationOut
deriving DecidableEq, Repr

/-- `models.UserCreateRequest` (string fields use the Go zero value `""`
for an absent optional field, as the handlers test). -/
structure UserCreateRequest where
  email : String
  password : String
  firstName : String
  lastName : String
  avatarURL : String
deriving DecidableEq, Repr

/-- `models.UserUpdateRequest`. -/
structure UserUpdateRequest where
  firstName : String
  lastName : String
  avatarURL : Option String
  isActive : Option Bool
deriving DecidableEq, Repr

/-- `models.TaskUpdateRequest`. -/
structure TaskUpdateRequest where
  title : String
  description : Option String
  assigneeId : Option Nat
  status : Option TaskStatus
  priority : Option TaskPriority
  dueDate : Option Nat
deriving DecidableEq, Repr

/-- `models.TaskStatusUpdateRequest`. -/
structure TaskStatusUpdateRequest where
  status : TaskStatus
deriving DecidableEq, Repr

/-!  Pagination parameter handling, common to `GetProjects`, `GetUsers`
and `GetProjectTasks`.  The handlers read `c.Query("page", "1")` and
`c.Query("limit", "10")` through `strconv.Atoi` (whose error is ignored,
so a non-numeric value becomes `0`) and then normalise:

    if page < 1 { page = 1 }
    if limit < 1 || limit > 100 { limit = 10 }
-/

/-- The `page` query value after `c.Query("page", "1")` + `Atoi`:
`none` is an absent parameter (default string "1"). -/
def pageParam (q : Option Int) : Int := q.getD 1

/-- The `limit` query value after `c.Query("limit", "10")` + `Atoi`:
`none` is an absent parameter (default string "10"). -/
def limitParam (q : Option Int) : Int := q.getD 10

/-- `if page < 1 { page = 1 }`. -/
def effectivePage (page : Int) : Int := if page < 1 then 1 else page

/-- `if limit < 1 || limit > 100 { limit = 10 }`. -/
def effectiveLimit (lim : Int) : Int := if lim < 1 ∨ lim > 100 then 10 else lim

/-- `totalPages := int(math.Ceil(float64(total) / float64(limit)))`,
embedded as the exact integer ceiling `(total + limit - 1) / limit`.
The effective limit always lies in `[1, 100]`, so the float64 ceiling in
the Go code agrees with the exact ceiling for every `total` below `2^53`. -/
def totalPages (total lim : Nat) : Nat := (total + lim - 1) / lim

/-!  JWT issuance and verification (`internal/middleware/auth.go`). -/

/-- The claim set embedded in a token (`middleware.JWTClaims`). -/
structure JWTClaims where
  userId : Nat
  email : String
  expiresAt : Nat
  issuedAt : Nat
deriving DecidableEq, Repr

/-- Symbolic model of a token string: either the output of signing a
claim set with a secret (`SignedString`), or any other string. -/
inductive TokenString where
  | signed (claims : JWTClaims) (secret : String)
  | garbage (s : String)
deriving DecidableEq, Repr

/-- The `Authorization` header content: a string without the `Bearer `
prefix, or `Bearer ` followed by a token string.  A missing header is
`Option.none` at the use site. -/
inductive AuthHeader where
  | notBearer (s : String)
  | bearer (tok : TokenString)
deriving DecidableEq, Repr

/-- The JWT part of `config.Config`: the signing secret and the parsed
expiry duration (`none` models a `cfg.JWT.Expiry` string that
`time.ParseDuration` rejects). -/
structure Config where
  jwtSecret : String
  jwtExpiry : Option Nat
deriving DecidableEq, Repr

/-- The duration used by `GenerateJWT`: the parsed `cfg.JWT.Expiry`, or
24 hours when parsing fails. -/
def Config.jwtDuration (cfg : Config) : Nat := cfg.jwtExpiry.getD (24 * 3600)

/-- `middleware.GenerateJWT`: signs a claim set carrying the user id,
email, expiry `now + duration` and issue time with the configured secret. -/
def generateJWT (user : UserRow) (cfg : Config) (now : Nat) : TokenString :=
  .signed
    { userId := user.id, email := user.email,
      expiresAt := now + cfg.jwtDuration, issuedAt := now }
    cfg.jwtSecret

/-- `jwt.ParseWithClaims` with the key function returning the configured
secret: succeeds exactly when the token was signed with that secret. -/
def parseWithClaims (tok : TokenString) (secret : String) : Option JWTClaims :=
  match tok with
  | .signed claims s => if s = secret then some claims else none
  | .garbage _ => none

/-- Whether the signature of a token verifies under a secret. -/
def sigVerifies (tok : TokenString) (secret : String) : Bool :=
  match tok with
  | .signed _ s => s == secret
  | .garbage _ => false

/-- Result of the middleware: a 401 rejection (the handler is not
invoked), or the request proceeds with the caller identity stored in the
request context (`c.Locals`). -/
inductive MWOutcome where
  | reject (status : Nat) (message : String)
  | proceed (userId : Nat) (userEmail : String)
deriving DecidableEq, Repr

/-- `middleware.JWTMiddleware`: checks header presence, the `Bearer `
prefix, the signature, and expiry (`claims.ExpiresAt.Time.Before(now)`,
i.e. rejection exactly when `expiresAt < now`), in that order.  The
unreachable-in-model `Invalid token claims` branch of the source (claims
cast failure) is subsumed by the parse failure case. -/
def jwtMiddleware (cfg : Config) (now : Nat) (header : Option AuthHeader) :
    MWOutcome :=
  match header with
  | none => .reject 401 "Missing authorization header"
  | some (.notBearer _) => .reject 401 "Invalid authorization header format"
  | some (.bearer tok) =>
    match parseWithClaims tok cfg.jwtSecret with
    | none => .reject 401 "Invalid token"
    | some claims =>
      if claims.expiresAt < now then .reject 401 "Token expired"
      else .proceed claims.userId claims.email

/-!  User handlers (`internal/handlers`, `UserHandler`). -/

/-- `UserHandler.CreateUser`, after body parsing and validation.  The
handler first runs `h.db.Where("email = ?", req.Email).First(...)` — a
gorm query, so restricted to rows with `deleted_at IS NULL` — and
returns 409 on a hit.  Otherwise it inserts; the `users.email UNIQUE`
column constraint covers soft-deleted rows too, so the insert fails (500)
whenever any row, live or soft-deleted, carries the email.  The bcrypt
hash and the generated row id are the `hash` and `newId` parameters. -/
def createUser (db : DB) (req : UserCreateRequest) (newId : Nat)
    (hash : String) : Outcome UserResponse × DB :=
  if db.users.any (fun u => u.deletedAt.isNone && u.email == req.email) then
    (.err 409 "Conflict" "User with this email already exists", db)
  else if db.users.any (fun u => u.email == req.email) then
    (.err 500 "Internal Server Error" "Failed to create user", db)
  else
    let u : UserRow :=
      { id := newId, email := req.email, passwordHash := hash,
        firstName := req.firstName, lastName := req.lastName,
        avatarURL := if req.avatarURL ≠ "" then some req.avatarURL else none,
        isActive := true, deletedAt := none }
    (.ok 201 "User created successfully" u.toResponse,
     { db with users := db.users ++ [u] })

/-- `UserHandler.GetUsers`: pagination over all live users; no caller
scoping (the handler never reads the request context user). -/
def getUsers (db : DB) (pageQ limitQ : Option Int) : ListOut UserResponse :=
  let page := effectivePage (pageParam pageQ)
  let lim := effectiveLimit (limitParam limitQ)
  let offset := ((page - 1) * lim).toNat
  let lives := db.users.filter (fun u => u.deletedAt.isNone)
  { data := ((lives.drop offset).take lim.toNat).map UserRow.toResponse
    pagination :=
      { page := page, limit := lim, total := lives.length,
        totalPages := totalPages lives.length lim.toNat } }

/-- `UserHandler.GetUser`: `First(&user, userID)` — the first live user
row with the given id; no caller scoping. -/
def getUser (db : DB) (uid : Nat) : Outcome UserResponse :=
  match db.users.find? (fun u => u.deletedAt.isNone && u.id == uid) with
  | some u => .ok 200 "User retrieved successfully" u.toResponse
  | none => .err 404 "Not Found" "User not found"

/-- The field-by-field update of `UserHandler.UpdateUser` (Go zero-value
string means an absent field). -/
def applyUserUpdate (u : UserRow) (req : UserUpdateRequest) : UserRow :=
  { u with
    firstName := if req.firstName ≠ "" then req.firstName else u.firstName,
    lastName := if req.lastName ≠ "" then req.lastName else u.lastName,
    avatarURL := match req.avatarURL with
      | some a => some a
      | none => u.avatarURL,
    isActive := req.isActive.getD u.isActive }

/-- `UserHandler.UpdateUser`: a caller may only update the row whose id
equals their own (403 otherwise, checked before anything else touches the
store); then `First` + field updates + `Save` (an `UPDATE` scoped by the
primary key and, by the soft-delete scope, `deleted_at IS NULL`). -/
def updateUser (db : DB) (caller target : Nat) (req : UserUpdateRequest) :
    Outcome UserResponse × DB :=
  if caller ≠ target then
    (.err 403 "Forbidden" "You can only update your own profile", db)
  else
    match db.users.find? (fun u => u.deletedAt.isNone && u.id == target) with
    | none => (.err 404 "Not Found" "User not found", db)
    | some u =>
      let u2 := applyUserUpdate u req
      let users2 := db.users.map
        (fun v => if v.id == u2.id && v.deletedAt.isNone then u2 else v)
      (.ok 200 "User updated successfully" u2.toResponse, { db with users := users2 })

/-- `UserHandler.DeleteUser`: self-only check (403), then
`db.Delete(&User{}, userID)` — a soft delete of the live row with that
id; the handler does not inspect `RowsAffected`, so a vanished target
still answers 200. -/
def deleteUser (db : DB) (caller target : Nat) (now : Nat) :
    Outcome Unit × DB :=
  if caller ≠ target then
    (.err 403 "Forbidden" "You can only delete your own profile", db)
  else
    let users2 := db.users.map
      (fun u => if u.deletedAt.isNone && u.id == target
        then { u with deletedAt := some now } else u)
    (.ok 200 "User deleted successfully" (), { db with users := users2 })

/-!  Project handlers (`ProjectHandler`). -/

/-- The ownership-scoped row condition
`id = ? AND owner_id = ?` (plus the gorm soft-delete scope
`deleted_at IS NULL` for the `projects` model) shared by `GetProject`,
`UpdateProject`, `DeleteProject` and `GetProjectTasks`. -/
def projectHit (caller pid : Nat) (p : ProjectRow) : Bool :=
  p.deletedAt.isNone && p.id == pid && p.ownerId == caller

/-- The ownership-scoped `First` lookup over projects. -/
def findOwnedProject (db : DB) (caller pid : Nat) : Option ProjectRow :=
  db.projects.find? (projectHit caller pid)

/-- Project plus its preloaded tasks (`Project.ToResponseWithTasks`
carrier; `Preload("Tasks")` is a gorm query, hence live tasks only). -/
structure ProjectWithTasks where
  project : ProjectRow
  tasks : List TaskRow
deriving DecidableEq, Repr

/-- `ProjectHandler.GetProject`. -/
def getProject (db : DB) (caller pid : Nat) : Outcome ProjectWithTasks :=
  match findOwnedProject db caller pid with
  | some p =>
    .ok 200 "Project retrieved successfully"
      { project := p,
        tasks := db.tasks.filter
          (fun t => t.deletedAt.isNone && t.projectId == p.id) }
  | none => .err 404 "Not Found" "Project not found"

/-- `ProjectHandler.GetProjects`: count and page over the live projects
owned by the caller. -/
def getProjects (db : DB) (caller : Nat) (pageQ limitQ : Option Int) :
    ListOut ProjectRow :=
  let page := effectivePage (pageParam pageQ)
  let lim := effectiveLimit (limitParam limitQ)
  let offset := ((page - 1) * lim).toNat
  let owned := db.projects.filter
    (fun p => p.deletedAt.isNone && p.ownerId == caller)
  { data := (owned.drop offset).take lim.toNat
    pagination :=
      { page := page, limit := lim, total := owned.length,
        totalPages := totalPages owned.length lim.toNat } }

/-- The join condition on the `projects` side: some project row —
soft-deleted or not — with the task's `project_id` and the caller as
owner. -/
def taskOwnedJoin (db : DB) (caller : Nat) (t : TaskRow) : Bool :=
  db.projects.any (fun p => p.id == t.projectId && p.ownerId == caller)

/-- The row condition of `GetTask` / `UpdateTask` / `UpdateTaskStatus` /
`DeleteTask`: a live task with the given id whose project joins to the
caller. -/
def taskHit (db : DB) (caller tid : Nat) (t : TaskRow) : Bool :=
  t.deletedAt.isNone && t.id == tid && taskOwnedJoin db caller t

/-- The join-scoped `First` lookup over tasks. -/
def findOwnedTask (db : DB) (caller tid : Nat) : Option TaskRow :=
  db.tasks.find? (taskHit db caller tid)

/-- `Task.BeforeUpdate` (gorm hook, run by `Save`): set `completed_at`
when the status is done and it is still unset, clear it whenever the
status is not done. -/
def TaskRow.beforeUpdate (t : TaskRow) (now : Nat) : TaskRow :=
  if t.status = TaskStatus.done ∧ t.completedAt = none then
    { t with completedAt := some now }
  else if t.status ≠ TaskStatus.done then
    { t with completedAt := none }
  else t

/-- `h.db.Save(&task)` on a fetched task: runs the `BeforeUpdate` hook,
then issues an `UPDATE` scoped by the primary key (and the soft-delete
scope).  Returns the saved row and the new store. -/
def saveTask (db : DB) (t : TaskRow) (now : Nat) : TaskRow × DB :=
  let t2 := t.beforeUpdate now
  let tasks2 := db.tasks.map
    (fun q => if q.id == t2.id && q.deletedAt.isNone then t2 else q)
  (t2, { db with tasks := tasks2 })

/-- `TaskHandler.GetTask`. -/
def getTask (db : DB) (caller tid : Nat) : Outcome TaskRow :=
  match findOwnedTask db caller tid with
  | some t => .ok 200 "Task retrieved successfully" t
  | none => .err 404 "Not Found" "Task not found"

/-- The field-by-field update of `TaskHandler.UpdateTask`. -/
def applyTaskUpdate (t : TaskRow) (req : TaskUpdateRequest) : TaskRow :=
  { t with
    title := if req.title ≠ "" then req.title else t.title,
    description := match req.description with
      | some d => some d
      | none => t.description,
    assigneeId := match req.assigneeId with
      | some a => some a
      | none => t.assigneeId,
    status := req.status.getD t.status,
    priority := req.priority.getD t.priority,
    dueDate := match req.dueDate with
      | some d => some d
      | none => t.dueDate }

/-- `TaskHandler.UpdateTask`: join-scoped `First` (404 when absent or
not owned), field updates, `Save` (which runs `BeforeUpdate`). -/
def updateTask (db : DB) (caller tid : Nat) (req : TaskUpdateRequest)
    (now : Nat) : Outcome TaskRow × DB :=
  match findOwnedTask db caller tid with
  | none => (.err 404 "Not Found" "Task not found", db)
  | some t =>
    let r := saveTask db (applyTaskUpdate t req) now
    (.ok 200 "Task updated successfully" r.1, r.2)

/-- `TaskHandler.UpdateTaskStatus`: join-scoped `First`, set the status
field only, `Save` (which runs `BeforeUpdate`). -/
def updateTaskStatus (db : DB) (caller tid : Nat)
    (req : TaskStatusUpdateRequest) (now : Nat) : Outcome TaskRow × DB :=
  match findOwnedTask db caller tid with
  | none => (.err 404 "Not Found" "Task not found", db)
  | some t =>
    let r := saveTask db { t with status := req.status } now
    (.ok 200 "Task status updated successfully" r.1, r.2)

/-- `TaskHandler.GetProjectTasks`: ownership-scoped project lookup (404
when absent, not owned, or soft-deleted), then count and page over the
live tasks of the project. -/
def getProjectTasks (db : DB) (caller pid : Nat) (pageQ limitQ : Option Int) :
    Outcome (ListOut TaskRow) :=
  match findOwnedProject db caller pid with
  | none => .err 404 "Not Found" "Project not found"
  | some _ =>
    let page := effectivePage (pageParam pageQ)
    let lim := effectiveLimit (limitParam limitQ)
    let offset := ((page - 1) * lim).toNat
    let ts := db.tasks.filter
      (fun t => t.deletedAt.isNone && t.projectId == pid)
    .ok 200 "Tasks retrieved successfully"
      { data := (ts.drop offset).take lim.toNat
        pagination :=
          { page := page, limit := lim, total := ts.length,
            totalPages := totalPages ts.length lim.toNat } }

/-!  Caller-explicit views of the user read handlers.  Both routes sit
behind `JWTMiddleware`, so every request carries an authenticated caller
in the context; the handler bodies never read it.  The wrappers make
that caller explicit so that caller-independence is statable. -/

/-- `UserHandler.GetUsers` as served to an authenticated caller. -/
def getUsersAs (db : DB) (_caller : Nat) (pageQ limitQ : Option Int) :
    ListOut UserResponse :=
  getUsers db pageQ limitQ

/-- `UserHandler.GetUser` as served to an authenticated caller. -/
def getUserAs (db : DB) (_caller : Nat) (uid : Nat) : Outcome UserResponse :=
  getUser db uid

/-!  Concrete sample data for witnesses and counterexamples. -/

/-- A live user row with the given id and email. -/
def mkUser (i : Nat) (em : String) : UserRow :=
  { id := i, email := em, passwordHash := "h", firstName := "F",
    lastName := "L", avatarURL := none, isActive := true, deletedAt := none }

/-- A live project row with the given id and owner. -/
def mkProject (i owner : Nat) : ProjectRow :=
  { id := i, name := "p", description := none, color := "#6366f1",
    ownerId := owner, status := .active, deletedAt := none }

/-- A live todo task with the given id, inside the given project. -/
def mkTask (i pid : Nat) : TaskRow :=
  { id := i, title := "t", description := none, projectId := pid,
    assigneeId := none, status := .todo, priority := .medium,
    dueDate := none, completedAt := none, deletedAt := none }

/-- Two users; user 1 owns project 10 which holds task 20. -/
def baseDB : DB :=
  { users := [mkUser 1 "a@x.io", mkUser 2 "b@x.io"],
    projects := [mkProject 10 1],
    tasks := [mkTask 20 10] }

/-- One user owning eleven live projects. -/
def elevenDB : DB :=
  { users := [mkUser 1 "a@x.io"],
    projects := (List.range 11).map (fun i => mkProject (100 + i) 1),
    tasks := [] }

/-- A store whose only user row is soft-deleted but still holds its
unique email. -/
def deletedEmailDB : DB :=
  { users := [{ mkUser 1 "a@x.io" with deletedAt := some 5 }],
    projects := [], tasks := [] }

/-- Project 10 (owned by user 1) has been soft-deleted; its task 20 is
still live, because soft deletion is an `UPDATE` and fires no foreign-key
cascade. -/
def orphanTaskDB : DB :=
  { users := [mkUser 1 "a@x.io"],
    projects := [{ mkProject 10 1 with deletedAt := some 50 }],
    tasks := [mkTask 20 10] }

/-- An update request body with every field absent. -/
def emptyTaskUpdate : TaskUpdateRequest :=
  { title := "", description := none, assigneeId := none, status := none,
    priority := none, dueDate := none }

/-- An update request body with every field absent. -/
def emptyUserUpdate : UserUpdateRequest :=
  { firstName := "", lastName := "", avatarURL := none, isActive := none }

/-- The row stored by the C2 witness run: task 20 moved to done at time
99. -/
def c2Task : TaskRow :=
  { mkTask 20 10 with status := TaskStatus.done, completedAt := some 99 }

/-- The store after the C2 witness run. -/
def c2DB : DB := { baseDB with tasks := [c2Task] }

/-- Response of the C3 witness run: page 3 requested with limit 150,
which the code resets to 10 (offset 20 runs past the single task). -/
def c3Out : ListOut TaskRow :=
  { data := [],
    pagination := { page := 3, limit := 10, total := 1, totalPages := 1 } }

/-!  General list helpers. -/

/-- Membership from an indexed lookup. -/
theorem list_mem_of_getElem? {α : Type} (l : List α) (n : Nat) (a : α)
    (h : l[n]? = some a) : a ∈ l := by
  have hn : n < l.length := by
    by_contra hc
    simp [List.getElem?_eq_none (Nat.le_of_not_lt hc)] at h
  have hm := List.getElem_mem (l := l) (n := n) hn
  rw [List.getElem?_eq_getElem hn] at h
  rw [← Option.some_inj.mp h]
  exact hm

/-- `find?` returns the unique member satisfying the predicate. -/
theorem list_find?_eq_some_of_unique {α : Type} (l : List α) (p : α → Bool)
    (a : α) (ha : a ∈ l) (hpa : p a = true)
    (huniq : ∀ b ∈ l, p b = true → b = a) : l.find? p = some a := by
  induction l with
  | nil => cases ha
  | cons x t ih =>
    by_cases hx : p x = true
    · rw [List.find?_cons_of_pos _ hx]
      exact congrArg some (huniq x (List.mem_cons_self x t) hx)
    · rw [List.find?_cons_of_neg _ (by simpa using hx)]
      rcases List.mem_cons.mp ha with h | h
      · exact absurd (h ▸ hpa) hx
      · exact ih h (fun b hb hpb => huniq b (List.mem_cons_of_mem x hb) hpb)

/-- Every member of a list lands in the `k`-sized page starting at some
multiple of `k`. -/
theorem list_mem_chunk {α : Type} (l : List α) (k : Nat) (hk : 0 < k)
    (a : α) (ha : a ∈ l) : ∃ q, a ∈ (l.drop (q * k)).take k := by
  obtain ⟨i, hi⟩ := List.getElem?_of_mem ha
  refine ⟨i / k, ?_⟩
  have hmod : i % k < k := Nat.mod_lt _ hk
  have hik : i / k * k + i % k = i := by
    have h0 := Nat.div_add_mod i k
    rw [Nat.mul_comm k (i / k)] at h0
    exact h0
  have h1 : (l.drop (i / k * k))[i % k]? = some a := by
    rw [List.getElem?_drop, hik]
    exact hi
  have h2 : ((l.drop (i / k * k)).take k)[i % k]? = some a := by
    rw [List.getElem?_take]
    simp [hmod, h1]
  exact list_mem_of_getElem? _ _ _ h2

/-!  Facts about the ownership-scoped row conditions. -/

/-- The hook never changes the row id. -/
theorem beforeUpdate_id (t : TaskRow) (now : Nat) :
    (t.beforeUpdate now).id = t.id := by
  unfold TaskRow.beforeUpdate
  split_ifs <;> rfl

/-- The hook never changes the status. -/
theorem beforeUpdate_status (t : TaskRow) (now : Nat) :
    (t.beforeUpdate now).status = t.status := by
  unfold TaskRow.beforeUpdate
  split_ifs <;> rfl

/-- After the hook, a done task carries a completion timestamp. -/
theorem beforeUpdate_done (t : TaskRow) (now : Nat)
    (h : (t.beforeUpdate now).status = TaskStatus.done) :
    ∃ ts, (t.beforeUpdate now).completedAt = some ts := by
  rw [beforeUpdate_status] at h
  unfold TaskRow.beforeUpdate
  split_ifs with h1 h2
  · exact ⟨now, rfl⟩
  · exact absurd h h2
  · have hne : t.completedAt ≠ none := fun hc => h1 ⟨h, hc⟩
    exact Option.ne_none_iff_exists'.mp hne

/-- After the hook, a non-done task carries no completion timestamp. -/
theorem beforeUpdate_not_done (t : TaskRow) (now : Nat)
    (h : (t.beforeUpdate now).status ≠ TaskStatus.done) :
    (t.beforeUpdate now).completedAt = none := by
  rw [beforeUpdate_status] at h
  unfold TaskRow.beforeUpdate
  split_ifs with h1
  · exact absurd h1.1 h
  · rfl

/-- `applyTaskUpdate` keeps the row id. -/
theorem applyTaskUpdate_id (t : TaskRow) (req : TaskUpdateRequest) :
    (applyTaskUpdate t req).id = t.id := rfl

/-- `applyTaskUpdate` sets the status to the requested one when present. -/
theorem applyTaskUpdate_status (t : TaskRow) (req : TaskUpdateRequest) :
    (applyTaskUpdate t req).status = req.status.getD t.status := rfl

/-- The row written by `Save` lands in the stored table whenever the
fetched row it replaces was live and shared its id. -/
theorem saveTask_mem (db : DB) (t1 : TaskRow) (now : Nat) (t0 : TaskRow)
    (hmem : t0 ∈ db.tasks) (hid : t0.id = t1.id)
    (hlive : t0.deletedAt.isNone = true) :
    (saveTask db t1 now).1 ∈ (saveTask db t1 now).2.tasks := by
  unfold saveTask
  have hcond : (t0.id == (t1.beforeUpdate now).id && t0.deletedAt.isNone)
      = true := by
    rw [beforeUpdate_id, Bool.and_eq_true, beq_iff_eq]
    exact ⟨hid, hlive⟩
  have hf : (fun q => if q.id == (t1.beforeUpdate now).id && q.deletedAt.isNone
      then t1.beforeUpdate now else q) t0 = t1.beforeUpdate now := by
    simp only [hcond, if_pos]
  show t1.beforeUpdate now ∈ db.tasks.map
    (fun q => if q.id == (t1.beforeUpdate now).id && q.deletedAt.isNone
      then t1.beforeUpdate now else q)
  exact List.mem_map.mpr ⟨t0, hmem, hf⟩

/-- Shape of `UpdateTask` on a missed lookup. -/
theorem updateTask_miss (db : DB) (caller tid now : Nat)
    (req : TaskUpdateRequest) (hf : findOwnedTask db caller tid = none) :
    updateTask db caller tid req now =
      (.err 404 "Not Found" "Task not found", db) := by
  unfold updateTask
  rw [hf]

/-- Shape of `UpdateTask` on a successful lookup. -/
theorem updateTask_found (db : DB) (caller tid now : Nat)
    (req : TaskUpdateRequest) (t0 : TaskRow)
    (hf : findOwnedTask db caller tid = some t0) :
    updateTask db caller tid req now =
      (.ok 200 "Task updated successfully"
        (saveTask db (applyTaskUpdate t0 req) now).1,
       (saveTask db (applyTaskUpdate t0 req) now).2) := by
  unfold updateTask
  rw [hf]

/-- Shape of `UpdateTaskStatus` on a missed lookup. -/
theorem updateTaskStatus_miss (db : DB) (caller tid now : Nat)
    (sreq : TaskStatusUpdateRequest)
    (hf : findOwnedTask db caller tid = none) :
    updateTaskStatus db caller tid sreq now =
      (.err 404 "Not Found" "Task not found", db) := by
  unfold updateTaskStatus
  rw [hf]

/-- Shape of `UpdateTaskStatus` on a successful lookup. -/
theorem updateTaskStatus_found (db : DB) (caller tid now : Nat)
    (sreq : TaskStatusUpdateRequest) (t0 : TaskRow)
    (hf : findOwnedTask db caller tid = some t0) :
    updateTaskStatus db caller tid sreq now =
      (.ok 200 "Task status updated successfully"
        (saveTask db { t0 with status := sreq.status } now).1,
       (saveTask db { t0 with status := sreq.status } now).2) := by
  unfold updateTaskStatus
  rw [hf]

/-- Claim C2: whenever `UpdateTask` or `UpdateTaskStatus` succeeds, the
saved row (which is written into the store) carries a completion
timestamp exactly when its resulting status is done: a requested done
status yields a non-nil `completed_at`, and any other resulting status —
requested or left in place — yields a nil one. -/
theorem c2_done_controls_completed_at (db : DB) (caller tid now : Nat)
    (req : TaskUpdateRequest) (sreq : TaskStatusUpdateRequest) :
    (∀ m t2 db2, updateTask db caller tid req now = (.ok 200 m t2, db2) →
      t2 ∈ db2.tasks ∧
      (∀ s, req.status = some s → t2.status = s) ∧
      (t2.status = TaskStatus.done → ∃ ts, t2.completedAt = some ts) ∧
      (t2.status ≠ TaskStatus.done → t2.completedAt = none)) ∧
    (∀ m t2 db2,
      updateTaskStatus db caller tid sreq now = (.ok 200 m t2, db2) →
      t2 ∈ db2.tasks ∧ t2.status = sreq.status ∧
      (sreq.status = TaskStatus.done → ∃ ts, t2.completedAt = some ts) ∧
      (sreq.status ≠ TaskStatus.done → t2.completedAt = none)) := by
  constructor
  · intro m t2 db2 h
    cases hf : findOwnedTask db caller tid with
    | none =>
      rw [updateTask_miss db caller tid now req hf] at h
      simp at h
    | some t0 =>
      rw [updateTask_found db caller tid now req t0 hf] at h
      simp only [Prod.mk.injEq, Outcome.ok.injEq] at h
      obtain ⟨⟨-, -, h2⟩, hdb⟩ := h
      subst h2
      subst hdb
      have hhit := List.find?_some hf
      simp only [taskHit, Bool.and_eq_true, beq_iff_eq] at hhit
      have hmem := List.mem_of_find?_eq_some hf
      refine ⟨saveTask_mem db (applyTaskUpdate t0 req) now t0 hmem
        (applyTaskUpdate_id t0 req).symm hhit.1.1, ?_, ?_, ?_⟩
      · intro s hs
        show ((applyTaskUpdate t0 req).beforeUpdate now).status = s
        rw [beforeUpdate_status, applyTaskUpdate_status, hs]
        rfl
      · exact beforeUpdate_done (applyTaskUpdate t0 req) now
      · exact beforeUpdate_not_done (applyTaskUpdate t0 req) now
  · intro m t2 db2 h
    cases hf : findOwnedTask db caller tid with
    | none =>
      rw [updateTaskStatus_miss db caller tid now sreq hf] at h
      simp at h
    | some t0 =>
      rw [updateTaskStatus_found db caller tid now sreq t0 hf] at h
      simp only [Prod.mk.injEq, Outcome.ok.injEq] at h
      obtain ⟨⟨-, -, h2⟩, hdb⟩ := h
      subst h2
      subst hdb
      have hhit := List.find?_some hf
      simp only [taskHit, Bool.and_eq_true, beq_iff_eq] at hhit
      have hmem := List.mem_of_find?_eq_some hf
      have hstat : (({ t0 with status := sreq.status } :
          TaskRow).beforeUpdate now).status = sreq.status := by
        rw [beforeUpdate_status]
      refine ⟨saveTask_mem db { t0 with status := sreq.status } now t0 hmem
        rfl hhit.1.1, hstat, ?_, ?_⟩
      · intro hdone
        exact beforeUpdate_done _ now (by rw [hstat, hdone])
      · intro hnd
        exact beforeUpdate_not_done _ now (by rw [hstat]; exact hnd)

/-- Concrete check of C2: moving task 20 of `baseDB` to done via
`UpdateTaskStatus` stores it with `completed_at = some 99`. -/
theorem c2_witness :
    c2Task ∈ c2DB.tasks ∧ c2Task.status = TaskStatus.done ∧
    (TaskStatus.done = TaskStatus.done →
      ∃ ts, c2Task.completedAt = some ts) ∧
    (TaskStatus.done ≠ TaskStatus.done → c2Task.completedAt = none) :=
  (c2_done_controls_completed_at baseDB 1 20 99 emptyTaskUpdate
      ⟨TaskStatus.done⟩).2
    "Task status updated successfully" c2Task c2DB (by decide)

/-!  Pagination parameter normalisation. -/

/-- The page clamp is exactly `max page 1`. -/
theorem effectivePage_eq_max (p : Int) : effectivePage p = max p 1 := by
  unfold effectivePage
  split_ifs with h <;> omega

/-- The limit normalisation keeps an in-range limit and resets any
out-of-range one — larger than 100 included — to the default 10. -/
theorem effectiveLimit_eq (l : Int) :
    effectiveLimit l = if 1 ≤ l ∧ l ≤ 100 then l else 10 := by
  unfold effectiveLimit
  split_ifs with h1 h2 <;> omega

/-- Shape of `GetProjectTasks` on a missed project lookup. -/
theorem getProjectTasks_miss (db : DB) (caller pid : Nat)
    (pageQ limitQ : Option Int)
    (hf : findOwnedProject db caller pid = none) :
    getProjectTasks db caller pid pageQ limitQ =
      .err 404 "Not Found" "Project not found" := by
  unfold getProjectTasks
  rw [hf]

/-- Shape of `GetProjectTasks` on a successful project lookup. -/
theorem getProjectTasks_found (db : DB) (caller pid : Nat)
    (pageQ limitQ : Option Int) (p : ProjectRow)
    (hf : findOwnedProject db caller pid = some p) :
    getProjectTasks db caller pid pageQ limitQ =
      .ok 200 "Tasks retrieved successfully"
        { data := ((db.tasks.filter
            (fun t => t.deletedAt.isNone && t.projectId == pid)).drop
              ((effectivePage (pageParam pageQ) - 1)
                * effectiveLimit (limitParam limitQ)).toNat).take
            (effectiveLimit (limitParam limitQ)).toNat,
          pagination :=
            { page := effectivePage (pageParam pageQ),
              limit := effectiveLimit (limitParam limitQ),
              total := (db.tasks.filter
                (fun t => t.deletedAt.isNone && t.projectId == pid)).length,
              totalPages := totalPages
                (db.tasks.filter
                  (fun t => t.deletedAt.isNone && t.projectId == pid)).length
                (effectiveLimit (limitParam limitQ)).toNat } } := by
  unfold getProjectTasks
  rw [hf]

/-- Claim C3 counterexample: a requested limit of 150 yields an
effective limit of 10, not the 100 the claim requires (the code resets
any out-of-range limit to the default instead of clamping). -/
theorem c3_counterexample :
    (getProjects ⟨[], [], []⟩ 1 (some 1) (some 150)).pagination.limit = 10 ∧
    (getProjects ⟨[], [], []⟩ 1 (some 1) (some 150)).pagination.limit
      ≠ 100 := by
  decide

/-- Claim C3 (amended): for every list request the effective page is
`max page 1` and the effective limit is the requested limit when it lies
in `[1, 100]` and the default 10 otherwise (in particular a limit above
100 or below 1 becomes 10); an absent limit parameter defaults to 10. -/
theorem c3_pagination_normalisation (db : DB) (caller pid : Nat)
    (pageQ limitQ : Option Int) :
    (getProjects db caller pageQ limitQ).pagination.page =
      max (pageParam pageQ) 1 ∧
    (getUsers db pageQ limitQ).pagination.page = max (pageParam pageQ) 1 ∧
    (getProjects db caller pageQ limitQ).pagination.limit =
      (if 1 ≤ limitParam limitQ ∧ limitParam limitQ ≤ 100
        then limitParam limitQ else 10) ∧
    (getUsers db pageQ limitQ).pagination.limit =
      (if 1 ≤ limitParam limitQ ∧ limitParam limitQ ≤ 100
        then limitParam limitQ else 10) ∧
    (∀ m out, getProjectTasks db caller pid pageQ limitQ = .ok 200 m out →
      out.pagination.page = max (pageParam pageQ) 1 ∧
      out.pagination.limit =
        (if 1 ≤ limitParam limitQ ∧ limitParam limitQ ≤ 100
          then limitParam limitQ else 10)) ∧
    (getProjects db caller pageQ none).pagination.limit = 10 ∧
    (getUsers db pageQ none).pagination.limit = 10 := by
  refine ⟨?_, ?_, ?_, ?_, ?_, ?_, ?_⟩
  · exact effectivePage_eq_max (pageParam pageQ)
  · exact effectivePage_eq_max (pageParam pageQ)
  · exact effectiveLimit_eq (limitParam limitQ)
  · exact effectiveLimit_eq (limitParam limitQ)
  · intro m out h
    cases hf : findOwnedProject db caller pid with
    | none =>
      rw [getProjectTasks_miss db caller pid pageQ limitQ hf] at h
      simp at h
    | some p =>
      rw [getProjectTasks_found db caller pid pageQ limitQ p hf] at h
      simp only [Outcome.ok.injEq] at h
      obtain ⟨-, -, hout⟩ := h
      subst hout
      exact ⟨effectivePage_eq_max (pageParam pageQ),
        effectiveLimit_eq (limitParam limitQ)⟩
  · show effectiveLimit (limitParam none) = 10
    decide
  · show effectiveLimit (limitParam none) = 10
    decide

/-- Concrete check of C3 (amended): listing the tasks of project 10 with
page 3 and limit 150 answers page 3 and the default limit 10. -/
theorem c3_witness :
    c3Out.pagination.page = max (pageParam (some 3)) 1 ∧
    c3Out.pagination.limit =
      (if 1 ≤ limitParam (some 150) ∧ limitParam (some 150) ≤ 100
        then limitParam (some 150) else 10) :=
  ((c3_pagination_normalisation baseDB 1 10 (some 3) (some 150)).2.2.2.2.1)
    "Tasks retrieved successfully" c3Out (by decide)

/-- Claim C4: `total_pages` is the integer ceiling of `total / limit` —
it is the least page count covering all rows — `GetProjects` computes it
from its total and effective limit, and the endpoint cases of the claim
hold: 11 projects with limit 10 give `total = 11, total_pages = 2`, and
an empty result gives `total_pages = 0`. -/
theorem c4_total_pages (db : DB) (caller : Nat) (pageQ limitQ : Option Int)
    (total lim : Nat) :
    (0 < lim →
      totalPages total lim = total ⌈/⌉ lim ∧
      total ≤ totalPages total lim * lim ∧
      (∀ k, total ≤ k * lim → totalPages total lim ≤ k)) ∧
    totalPages 0 lim = 0 ∧
    (getProjects db caller pageQ limitQ).pagination.totalPages =
      totalPages (getProjects db caller pageQ limitQ).pagination.total
        (effectiveLimit (limitParam limitQ)).toNat ∧
    (getProjects elevenDB 1 none none).pagination.total = 11 ∧
    (getProjects elevenDB 1 none none).pagination.totalPages = 2 ∧
    (getProjects elevenDB 1 (some 1) (some 10)).pagination.total = 11 ∧
    (getProjects elevenDB 1 (some 1) (some 10)).pagination.totalPages
      = 2 := by
  refine ⟨?_, ?_, rfl, by decide, by decide, by decide, by decide⟩
  · intro hl
    have hceil : totalPages total lim = total ⌈/⌉ lim := by
      unfold totalPages
      rw [Nat.ceilDiv_eq_add_pred_div]
    refine ⟨hceil, ?_, ?_⟩
    · have hle := le_smul_ceilDiv (a := lim) (b := total) hl
      rw [smul_eq_mul] at hle
      rw [hceil, Nat.mul_comm]
      exact hle
    · intro k hk
      rw [hceil]
      refine (ceilDiv_le_iff_le_smul hl).mpr ?_
      rw [smul_eq_mul, Nat.mul_comm]
      exact hk
  · cases lim with
    | zero => rfl
    | succ n =>
      show (0 + (n + 1) - 1) / (n + 1) = 0
      rw [Nat.zero_add, Nat.succ_sub_one]
      exact Nat.div_eq_of_lt (Nat.lt_succ_self n)

/-- Concrete check of C4: with 11 rows and limit 10 the page count is
the ceiling of 11/10 and no more than 2. -/
theorem c4_witness :
    totalPages 11 10 = 11 ⌈/⌉ 10 ∧ 11 ≤ totalPages 11 10 * 10 ∧
    totalPages 11 10 ≤ 2 :=
  let h := (c4_total_pages ⟨[], [], []⟩ 1 none none 11 10).1 (by decide)
  ⟨h.1, h.2.1, h.2.2 2 (by decide)⟩

/-!  Middleware evaluation lemmas. -/

/-- A correctly signed, unexpired token passes the middleware and
installs the embedded identity in the context. -/
theorem jwtMiddleware_signed_ok (cfg : Config) (now : Nat)
    (claims : JWTClaims) (he : ¬ claims.expiresAt < now) :
    jwtMiddleware cfg now (some (.bearer (.signed claims cfg.jwtSecret))) =
      .proceed claims.userId claims.email := by
  simp [jwtMiddleware, parseWithClaims, he]

/-- A correctly signed but expired token is rejected. -/
theorem jwtMiddleware_signed_expired (cfg : Config) (now : Nat)
    (claims : JWTClaims) (he : claims.expiresAt < now) :
    jwtMiddleware cfg now (some (.bearer (.signed claims cfg.jwtSecret))) =
      .reject 401 "Token expired" := by
  simp [jwtMiddleware, parseWithClaims, he]

/-- A token whose signature does not verify is rejected. -/
theorem jwtMiddleware_bad_sig (cfg : Config) (now : Nat) (tok : TokenString)
    (h : sigVerifies tok cfg.jwtSecret = false) :
    jwtMiddleware cfg now (some (.bearer tok)) =
      .reject 401 "Invalid token" := by
  cases tok with
  | garbage s => simp [jwtMiddleware, parseWithClaims]
  | signed claims sec =>
    have hne : sec ≠ cfg.jwtSecret := by
      intro hc
      rw [hc] at h
      simp [sigVerifies] at h
    simp [jwtMiddleware, parseWithClaims, hne]

/-- Claim C5: a token minted by `GenerateJWT` at login time `t0`, sent
back as `Bearer` under the same secret, passes the middleware with the
caller identity set to that user at every instant strictly before its
expiry `t0 + duration`, and is rejected 401 at every instant strictly
after it. -/
theorem c5_token_roundtrip (user : UserRow) (cfg : Config) (t0 t : Nat) :
    (t < t0 + cfg.jwtDuration →
      jwtMiddleware cfg t (some (.bearer (generateJWT user cfg t0))) =
        .proceed user.id user.email) ∧
    (t0 + cfg.jwtDuration < t →
      jwtMiddleware cfg t (some (.bearer (generateJWT user cfg t0))) =
        .reject 401 "Token expired") := by
  constructor
  · intro h
    exact jwtMiddleware_signed_ok cfg t
      { userId := user.id, email := user.email,
        expiresAt := t0 + cfg.jwtDuration, issuedAt := t0 }
      (by show ¬ t0 + cfg.jwtDuration < t; omega)
  · intro h
    exact jwtMiddleware_signed_expired cfg t
      { userId := user.id, email := user.email,
        expiresAt := t0 + cfg.jwtDuration, issuedAt := t0 } h

/-- Concrete check of C5: a token minted at time 0 with a 100-second
expiry passes at time 50 and is rejected at time 200. -/
theorem c5_witness :
    jwtMiddleware ⟨"s", some 100⟩ 50
      (some (.bearer (generateJWT (mkUser 1 "a@x.io") ⟨"s", some 100⟩ 0))) =
      .proceed 1 "a@x.io" ∧
    jwtMiddleware ⟨"s", some 100⟩ 200
      (some (.bearer (generateJWT (mkUser 1 "a@x.io") ⟨"s", some 100⟩ 0))) =
      .reject 401 "Token expired" :=
  ⟨(c5_token_roundtrip (mkUser 1 "a@x.io") ⟨"s", some 100⟩ 0 50).1
      (by decide),
   (c5_token_roundtrip (mkUser 1 "a@x.io") ⟨"s", some 100⟩ 0 200).2
      (by decide)⟩

/-- Claim C6: the middleware rejects with 401 — without invoking the
handler — exactly on a missing header, a header without the `Bearer `
prefix, a token whose signature does not verify under the configured
secret, or an expired token; in every other case the request proceeds,
and every non-proceeding outcome is a 401 rejection. -/
theorem c6_middleware_gate (cfg : Config) (now : Nat)
    (header : Option AuthHeader) :
    jwtMiddleware cfg now none =
      .reject 401 "Missing authorization header" ∧
    (∀ s, jwtMiddleware cfg now (some (.notBearer s)) =
      .reject 401 "Invalid authorization header format") ∧
    (∀ tok, sigVerifies tok cfg.jwtSecret = false →
      jwtMiddleware cfg now (some (.bearer tok)) =
        .reject 401 "Invalid token") ∧
    (∀ claims : JWTClaims, claims.expiresAt < now →
      jwtMiddleware cfg now (some (.bearer (.signed claims cfg.jwtSecret))) =
        .reject 401 "Token expired") ∧
    ((∃ uid em, jwtMiddleware cfg now header = .proceed uid em) ↔
      (∃ claims : JWTClaims,
        header = some (.bearer (.signed claims cfg.jwtSecret)) ∧
        now ≤ claims.expiresAt)) ∧
    ((∃ msg, jwtMiddleware cfg now header = .reject 401 msg) ∨
      (∃ uid em, jwtMiddleware cfg now header = .proceed uid em)) := by
  have hcases : (∃ claims : JWTClaims,
      header = some (.bearer (.signed claims cfg.jwtSecret)) ∧
      now ≤ claims.expiresAt) ∨
      (∃ msg, jwtMiddleware cfg now header = .reject 401 msg) := by
    cases header with
    | none => exact Or.inr ⟨"Missing authorization header", rfl⟩
    | some a =>
      cases a with
      | notBearer s =>
        exact Or.inr ⟨"Invalid authorization header format", rfl⟩
      | bearer tok =>
        cases tok with
        | garbage s =>
          exact Or.inr ⟨"Invalid token",
            jwtMiddleware_bad_sig cfg now (.garbage s) rfl⟩
        | signed claims sec =>
          by_cases hs : sec = cfg.jwtSecret
          · subst hs
            by_cases he : claims.expiresAt < now
            · exact Or.inr ⟨"Token expired",
                jwtMiddleware_signed_expired cfg now claims he⟩
            · exact Or.inl ⟨claims, rfl, le_of_not_lt he⟩
          · refine Or.inr ⟨"Invalid token",
              jwtMiddleware_bad_sig cfg now (.signed claims sec) ?_⟩
            simp [sigVerifies, hs]
  refine ⟨rfl, fun s => rfl, jwtMiddleware_bad_sig cfg now,
    jwtMiddleware_signed_expired cfg now, ?_, ?_⟩
  · constructor
    · rintro ⟨uid, em, hp⟩
      rcases hcases with hgood | ⟨msg, hrej⟩
      · exact hgood
      · rw [hrej] at hp
        cases hp
    · rintro ⟨claims, hh, he⟩
      subst hh
      exact ⟨claims.userId, claims.email,
        jwtMiddleware_signed_ok cfg now claims (not_lt.mpr he)⟩
  · rcases hcases with ⟨claims, hh, he⟩ | ⟨msg, hrej⟩
    · subst hh
      exact Or.inr ⟨claims.userId, claims.email,
        jwtMiddleware_signed_ok cfg now claims (not_lt.mpr he)⟩
    · exact Or.inl ⟨msg, hrej⟩

/-- Concrete check of C6: at time 7 a garbage token and a well-signed
token that expired at time 3 are both rejected with 401. -/
theorem c6_witness :
    jwtMiddleware ⟨"s", some 100⟩ 7 (some (.bearer (.garbage "zzz"))) =
      .reject 401 "Invalid token" ∧
    jwtMiddleware ⟨"s", some 100⟩ 7
      (some (.bearer (.signed ⟨1, "e", 3, 0⟩ "s"))) =
      .reject 401 "Token expired" :=
  ⟨(c6_middleware_gate ⟨"s", some 100⟩ 7 none).2.2.1 (.garbage "zzz")
      (by decide),
   (c6_middleware_gate ⟨"s", some 100⟩ 7 none).2.2.2.1 ⟨1, "e", 3, 0⟩
      (by decide)⟩

/-- Claim C7 counterexample: `deletedEmailDB` holds a user row with
email `a@x.io` (soft-deleted, hence invisible to the gorm duplicate
check but still guarded by the `UNIQUE` column), and registering the
same email answers 500, not the 409 the claim requires. -/
theorem c7_counterexample :
    deletedEmailDB.users = [{ mkUser 1 "a@x.io" with deletedAt := some 5 }] ∧
    (createUser deletedEmailDB ⟨"a@x.io", "secret1", "A", "B", ""⟩
      2 "h2").1 =
      .err 500 "Internal Server Error" "Failed to create user" := by
  decide

/-- Claim C7 (amended): a registration whose email matches a live
(non-soft-deleted) user answers 409 Conflict and creates no row; when
the email survives only on soft-deleted rows the duplicate check misses
it, the insert then violates the unique index, and the handler answers
500 — still creating no row.  In every duplicate case the store is
unchanged. -/
theorem c7_duplicate_email (db : DB) (req : UserCreateRequest)
    (newId : Nat) (hash : String) :
    ((∃ u ∈ db.users, u.deletedAt = none ∧ u.email = req.email) →
      createUser db req newId hash =
        (.err 409 "Conflict" "User with this email already exists", db)) ∧
    ((∀ u ∈ db.users, u.deletedAt = none → u.email ≠ req.email) →
      (∃ u ∈ db.users, u.email = req.email) →
      createUser db req newId hash =
        (.err 500 "Internal Server Error" "Failed to create user", db)) ∧
    ((∃ u ∈ db.users, u.email = req.email) →
      (createUser db req newId hash).2 = db) := by
  have hdup : ∀ u ∈ db.users, u.email = req.email →
      db.users.any (fun v => v.email == req.email) = true := by
    intro u hu he
    exact List.any_eq_true.mpr ⟨u, hu, by simp [he]⟩
  refine ⟨?_, ?_, ?_⟩
  · rintro ⟨u, hu, hd, he⟩
    have hlive : db.users.any
        (fun v => v.deletedAt.isNone && v.email == req.email) = true :=
      List.any_eq_true.mpr ⟨u, hu, by simp [hd, he]⟩
    unfold createUser
    rw [if_pos hlive]
  · rintro hall ⟨u, hu, he⟩
    have h1 : db.users.any
        (fun v => v.deletedAt.isNone && v.email == req.email) = false := by
      rw [List.any_eq_false]
      intro v hv hcond
      simp only [Bool.and_eq_true, beq_iff_eq,
        Option.isNone_iff_eq_none] at hcond
      exact hall v hv hcond.1 hcond.2
    unfold createUser
    rw [if_neg (by simp [h1]), if_pos (hdup u hu he)]
  · rintro ⟨u, hu, he⟩
    unfold createUser
    by_cases hb : db.users.any
        (fun v => v.deletedAt.isNone && v.email == req.email) = true
    · rw [if_pos hb]
    · rw [if_neg hb, if_pos (hdup u hu he)]

/-- Concrete check of C7 (amended): a live duplicate answers 409; a
duplicate surviving only on a soft-deleted row answers 500. -/
theorem c7_witness :
    createUser baseDB ⟨"a@x.io", "secret1", "A", "B", ""⟩ 3 "h3" =
      (.err 409 "Conflict" "User with this email already exists",
        baseDB) ∧
    createUser deletedEmailDB ⟨"a@x.io", "secret1", "A", "B", ""⟩ 2 "h2" =
      (.err 500 "Internal Server Error" "Failed to create user",
        deletedEmailDB) :=
  ⟨(c7_duplicate_email baseDB ⟨"a@x.io", "secret1", "A", "B", ""⟩
      3 "h3").1 (by decide),
   (c7_duplicate_email deletedEmailDB ⟨"a@x.io", "secret1", "A", "B", ""⟩
      2 "h2").2.1 (by decide) (by decide)⟩

/-- Claim C8: `UpdateUser` and `DeleteUser` on a target id different
from the caller answer 403 Forbidden before touching anything, leaving
the store unchanged; on the caller's own id the ownership gate never
fires — no outcome of the operation is a 403. -/
theorem c8_self_only_user_mutation (db : DB) (caller target now : Nat)
    (req : UserUpdateRequest) :
    (caller ≠ target →
      updateUser db caller target req =
        (.err 403 "Forbidden" "You can only update your own profile",
          db) ∧
      deleteUser db caller target now =
        (.err 403 "Forbidden" "You can only delete your own profile",
          db)) ∧
    (caller = target →
      (∀ er m, (updateUser db caller target req).1 ≠ .err 403 er m) ∧
      (∀ er m, (deleteUser db caller target now).1 ≠ .err 403 er m)) := by
  constructor
  · intro hne
    constructor
    · unfold updateUser
      rw [if_pos hne]
    · unfold deleteUser
      rw [if_pos hne]
  · intro heq
    constructor
    · intro er m hc
      unfold updateUser at hc
      rw [if_neg (not_not_intro heq)] at hc
      cases hf : db.users.find?
          (fun u => u.deletedAt.isNone && u.id == target) with
      | none =>
        rw [hf] at hc
        simp at hc
      | some u =>
        rw [hf] at hc
        simp at hc
    · intro er m hc
      unfold deleteUser at hc
      rw [if_neg (not_not_intro heq)] at hc
      simp at hc

/-- Concrete check of C8: user 2 touching user 1 gets 403 with the
store unchanged; user 1 touching their own profile never sees a 403. -/
theorem c8_witness :
    updateUser baseDB 2 1 emptyUserUpdate =
      (.err 403 "Forbidden" "You can only update your own profile",
        baseDB) ∧
    deleteUser baseDB 2 1 99 =
      (.err 403 "Forbidden" "You can only delete your own profile",
        baseDB) ∧
    (∀ er m, (updateUser baseDB 1 1 emptyUserUpdate).1 ≠ .err 403 er m) :=
  let h2 := (c8_self_only_user_mutation baseDB 2 1 99 emptyUserUpdate).1
    (by decide)
  let h1 := (c8_self_only_user_mutation baseDB 1 1 99 emptyUserUpdate).2 rfl
  ⟨h2.1, h2.2, h1.1⟩

/-- Claim C9 counterexample: in `orphanTaskDB` the only project row (id
10, owned by user 1) is soft-deleted, yet `GetTask` still returns its
live task 20 to the owner: the task-side join filters only
`tasks.deleted_at`, never `projects.deleted_at`, and soft deletion fires
no cascade onto the tasks. -/
theorem c9_counterexample :
    orphanTaskDB.projects =
      [{ mkProject 10 1 with deletedAt := some 50 }] ∧
    (mkTask 20 10).projectId = 10 ∧
    getTask orphanTaskDB 1 20 =
      .ok 200 "Task retrieved successfully" (mkTask 20 10) := by
  decide

/-- Claim C9 (amended): every read and list operation returns only rows
whose own `deleted_at` is unset and counts only such rows in its totals,
and `GetProject` / `GetProjectTasks` answer not-found when the project
itself is soft-deleted; `GetTask`, however, joins the `projects` table
without a `deleted_at` filter, so a live task of a soft-deleted project
is still returned to the project's owner. -/
theorem c9_soft_delete_scope (db : DB) (caller uid pid tid : Nat)
    (pageQ limitQ : Option Int) :
    (∀ r ∈ (getUsers db pageQ limitQ).data,
      ∃ u ∈ db.users, u.deletedAt = none ∧ r = u.toResponse) ∧
    (∀ m r, getUser db uid = .ok 200 m r →
      ∃ u ∈ db.users, u.deletedAt = none ∧ r = u.toResponse) ∧
    (∀ p ∈ (getProjects db caller pageQ limitQ).data,
      p ∈ db.projects ∧ p.deletedAt = none) ∧
    (∀ m pw, getProject db caller pid = .ok 200 m pw →
      pw.project ∈ db.projects ∧ pw.project.deletedAt = none ∧
      ∀ t ∈ pw.tasks, t ∈ db.tasks ∧ t.deletedAt = none) ∧
    (∀ m out, getProjectTasks db caller pid pageQ limitQ = .ok 200 m out →
      ∀ t ∈ out.data, t ∈ db.tasks ∧ t.deletedAt = none) ∧
    (∀ m t, getTask db caller tid = .ok 200 m t →
      t ∈ db.tasks ∧ t.deletedAt = none) ∧
    (getUsers db pageQ limitQ).pagination.total =
      (db.users.filter (fun u => u.deletedAt.isNone)).length ∧
    (getProjects db caller pageQ limitQ).pagination.total =
      (db.projects.filter
        (fun p => p.deletedAt.isNone && p.ownerId == caller)).length ∧
    (∀ m out, getProjectTasks db caller pid pageQ limitQ = .ok 200 m out →
      out.pagination.total =
        (db.tasks.filter
          (fun t => t.deletedAt.isNone && t.projectId == pid)).length) ∧
    ((∀ p ∈ db.projects, p.id = pid → p.deletedAt ≠ none) →
      getProject db caller pid =
        .err 404 "Not Found" "Project not found" ∧
      getProjectTasks db caller pid pageQ limitQ =
        .err 404 "Not Found" "Project not found") := by
  refine ⟨?_, ?_, ?_, ?_, ?_, ?_, rfl, rfl, ?_, ?_⟩
  · intro r hr
    simp only [getUsers] at hr
    obtain ⟨u, hu, hru⟩ := List.mem_map.mp hr
    have hu2 := List.mem_of_mem_drop (List.mem_of_mem_take hu)
    obtain ⟨hmem, hlive⟩ := List.mem_filter.mp hu2
    exact ⟨u, hmem, Option.isNone_iff_eq_none.mp hlive, hru.symm⟩
  · intro m r h
    unfold getUser at h
    cases hf : db.users.find? (fun u => u.deletedAt.isNone && u.id == uid)
      with
    | none =>
      rw [hf] at h
      simp at h
    | some u =>
      rw [hf] at h
      simp only [Outcome.ok.injEq] at h
      obtain ⟨-, -, hru⟩ := h
      have hp := List.find?_some hf
      simp only [Bool.and_eq_true, beq_iff_eq,
        Option.isNone_iff_eq_none] at hp
      exact ⟨u, List.mem_of_find?_eq_some hf, hp.1, hru.symm⟩
  · intro p hp
    simp only [getProjects] at hp
    have hp2 := List.mem_of_mem_drop (List.mem_of_mem_take hp)
    obtain ⟨hmem, hcond⟩ := List.mem_filter.mp hp2
    simp only [Bool.and_eq_true, Option.isNone_iff_eq_none] at hcond
    exact ⟨hmem, hcond.1⟩
  · intro m pw h
    unfold getProject at h
    cases hf : findOwnedProject db caller pid with
    | none =>
      rw [hf] at h
      simp at h
    | some p =>
      rw [hf] at h
      simp only [Outcome.ok.injEq] at h
      obtain ⟨-, -, hpw⟩ := h
      subst hpw
      have hp := List.find?_some hf
      simp only [projectHit, Bool.and_eq_true, beq_iff_eq,
        Option.isNone_iff_eq_none] at hp
      refine ⟨List.mem_of_find?_eq_some hf, hp.1.1, ?_⟩
      intro t ht
      obtain ⟨hmem, hcond⟩ := List.mem_filter.mp ht
      simp only [Bool.and_eq_true, Option.isNone_iff_eq_none] at hcond
      exact ⟨hmem, hcond.1⟩
  · intro m out h
    cases hf : findOwnedProject db caller pid with
    | none =>
      rw [getProjectTasks_miss db caller pid pageQ limitQ hf] at h
      simp at h
    | some p =>
      rw [getProjectTasks_found db caller pid pageQ limitQ p hf] at h
      simp only [Outcome.ok.injEq] at h
      obtain ⟨-, -, hout⟩ := h
      subst hout
      intro t ht
      have ht2 := List.mem_of_mem_drop (List.mem_of_mem_take ht)
      obtain ⟨hmem, hcond⟩ := List.mem_filter.mp ht2
      simp only [Bool.and_eq_true, Option.isNone_iff_eq_none] at hcond
      exact ⟨hmem, hcond.1⟩
  · intro m t h
    unfold getTask at h
    cases hf : findOwnedTask db caller tid with
    | none =>
      rw [hf] at h
      simp at h
    | some t0 =>
      rw [hf] at h
      simp only [Outcome.ok.injEq] at h
      obtain ⟨-, -, ht0⟩ := h
      subst ht0
      have hp := List.find?_some hf
      simp only [taskHit, Bool.and_eq_true, beq_iff_eq,
        Option.isNone_iff_eq_none] at hp
      exact ⟨List.mem_of_find?_eq_some hf, hp.1.1⟩
  · intro m out h
    cases hf : findOwnedProject db caller pid with
    | none =>
      rw [getProjectTasks_miss db caller pid pageQ limitQ hf] at h
      simp at h
    | some p =>
      rw [getProjectTasks_found db caller pid pageQ limitQ p hf] at h
      simp only [Outcome.ok.injEq] at h
      obtain ⟨-, -, hout⟩ := h
      subst hout
      rfl
  · intro hdel
    have hfp : findOwnedProject db caller pid = none := by
      unfold findOwnedProject
      rw [List.find?_eq_none]
      intro p hmem hcond
      simp only [projectHit, Bool.and_eq_true, beq_iff_eq,
        Option.isNone_iff_eq_none] at hcond
      exact hdel p hmem hcond.1.2 hcond.1.1
    exact ⟨by simp only [getProject, hfp],
      getProjectTasks_miss db caller pid pageQ limitQ hfp⟩

/-- Concrete check of C9 (amended): the task returned by `GetTask` on
`baseDB` is a live row of the store, and on `orphanTaskDB`, whose
project 10 is soft-deleted, `GetProject` and `GetProjectTasks` both
answer 404. -/
theorem c9_witness :
    (mkTask 20 10 ∈ baseDB.tasks ∧ (mkTask 20 10).deletedAt = none) ∧
    ({ data := [mkTask 20 10],
       pagination := { page := 1, limit := 10, total := 1, totalPages := 1 }
       } : ListOut TaskRow).pagination.total =
      (baseDB.tasks.filter
        (fun t => t.deletedAt.isNone && t.projectId == 10)).length ∧
    (getProject orphanTaskDB 1 10 =
        .err 404 "Not Found" "Project not found" ∧
      getProjectTasks orphanTaskDB 1 10 none none =
        .err 404 "Not Found" "Project not found") :=
  ⟨(c9_soft_delete_scope baseDB 1 1 10 20 none none).2.2.2.2.2.1
      "Task retrieved successfully" (mkTask 20 10) (by decide),
   (c9_soft_delete_scope baseDB 1 1 10 20 none none).2.2.2.2.2.2.2.2.1
      "Tasks retrieved successfully"
      { data := [mkTask 20 10],
        pagination := { page := 1, limit := 10, total := 1, totalPages := 1 } }
      (by decide),
   (c9_soft_delete_scope orphanTaskDB 1 1 10 20 none none).2.2.2.2.2.2.2.2.2
      (by decide)⟩

/-- Claim C10: the user read endpoints are not ownership-scoped — their
responses are identical for any two authenticated callers; every live
user of the system shows up on some `GetUsers` page, and `GetUser` on an
existing (live, unique) user id answers 200 with that user's full
profile no matter who asks. -/
theorem c10_user_reads_unscoped (db : DB) (ca cb uid : Nat)
    (pageQ limitQ : Option Int) (u : UserRow) :
    getUsersAs db ca pageQ limitQ = getUsersAs db cb pageQ limitQ ∧
    getUserAs db ca uid = getUserAs db cb uid ∧
    (u ∈ db.users → u.deletedAt = none →
      ∃ q : Nat, u.toResponse ∈
        (getUsersAs db ca (some ((q : Int) + 1)) (some 100)).data) ∧
    (u ∈ db.users → u.deletedAt = none → u.id = uid →
      (∀ v ∈ db.users, v.deletedAt = none → v.id = uid → v = u) →
      getUserAs db ca uid =
        .ok 200 "User retrieved successfully" u.toResponse) := by
  refine ⟨rfl, rfl, ?_, ?_⟩
  · intro hmem hlive
    have hl : u ∈ db.users.filter (fun v => v.deletedAt.isNone) :=
      List.mem_filter.mpr ⟨hmem, by simp [hlive]⟩
    obtain ⟨q, hq⟩ := list_mem_chunk _ 100 (by decide) u hl
    refine ⟨q, ?_⟩
    have hdata : (getUsersAs db ca (some ((q : Int) + 1)) (some 100)).data =
        (((db.users.filter (fun v => v.deletedAt.isNone)).drop
          (q * 100)).take 100).map UserRow.toResponse := by
      show (((db.users.filter (fun v => v.deletedAt.isNone)).drop
          ((effectivePage (pageParam (some ((q : Int) + 1))) - 1)
            * effectiveLimit (limitParam (some 100))).toNat).take
          (effectiveLimit (limitParam (some 100))).toNat).map
          UserRow.toResponse = _
      have h1 : effectiveLimit (limitParam (some 100)) = 100 := by decide
      have h2 : effectivePage (pageParam (some ((q : Int) + 1)))
          = (q : Int) + 1 := by
        unfold effectivePage pageParam
        rw [Option.getD_some, if_neg (by omega)]
      rw [h1, h2]
      have h3 : (((q : Int) + 1 - 1) * 100).toNat = q * 100 := by
        have hc : ((q : Int) + 1 - 1) * 100 = ((q * 100 : Nat) : Int) := by
          push_cast
          ring
        rw [hc, Int.toNat_natCast]
      rw [h3]
      rfl
    rw [hdata]
    exact List.mem_map_of_mem _ hq
  · intro hmem hlive hid huniq
    show getUser db uid =
      .ok 200 "User retrieved successfully" u.toResponse
    unfold getUser
    have hfind : db.users.find?
        (fun v => v.deletedAt.isNone && v.id == uid) = some u := by
      apply list_find?_eq_some_of_unique _ _ u hmem
      · simp [hlive, hid]
      · intro b hb hpb
        simp only [Bool.and_eq_true, beq_iff_eq,
          Option.isNone_iff_eq_none] at hpb
        exact huniq b hb hpb.1 hpb.2
    rw [hfind]

/-- Concrete check of C10: on `baseDB` the user listing is the same for
callers 1 and 2, user 1 shows up on a `GetUsers` page, and `GetUser 1`
answers user 1's profile to caller 1. -/
theorem c10_witness :
    getUsersAs baseDB 1 none none = getUsersAs baseDB 2 none none ∧
    (∃ q : Nat, (mkUser 1 "a@x.io").toResponse ∈
      (getUsersAs baseDB 1 (some ((q : Int) + 1)) (some 100)).data) ∧
    getUserAs baseDB 1 1 =
      .ok 200 "User retrieved successfully"
        (mkUser 1 "a@x.io").toResponse :=
  let h := c10_user_reads_unscoped baseDB 1 2 1 none none
    (mkUser 1 "a@x.io")
  ⟨h.1, h.2.2.1 (by decide) (by decide),
   h.2.2.2 (by decide) (by decide) (by decide) (by decide)⟩
